import Mathlib

/-
Verification of nemo/collections/asr/modules/audio_modules.py (multichannel
acoustic front-end: cACGMM/EM mask estimation, WPE dereverberation,
mask-based beamforming, reference-channel masking).

Modelling conventions:
* Tensors are total functions over Fin-indexed axes (B, C/M, F, T), following
  the semantic axes of the source. Real scalars are rationals; complex scalars
  are pairs of rationals (first component = real part, second = imaginary part).
* External backend primitives declared out of scope by the code's design
  (eigendecomposition, Cholesky factorization, triangular solves, elementwise
  exponential and absolute value, dB-to-magnitude conversion) are passed as
  function parameters to the embedded definitions, mirroring the fact that
  the source delegates them to torch / utility modules.
* Fallible code paths (Python raise / assert / UnboundLocalError) are embedded
  with Except.
-/

/-- Complex scalar: pair (real part, imaginary part) of rationals. -/
abbrev CQ : Type := ℚ × ℚ

/-- Embedding of torch.clamp(x, min=lo, max=hi): lower bound applied first,
then the upper bound. -/
def clampt (lo hi x : ℚ) : ℚ := min (max x lo) hi

/-- Scalar multiplication of a complex value by a real mask value, the
elementwise product of a real tensor broadcast against a complex tensor. -/
def smulCQ (r : ℚ) (z : CQ) : CQ := (r * z.1, r * z.2)

/-- MaskReferenceChannel.forward (audio_modules.py lines 583-604): clamp the
mask to the configured thresholds, then multiply each of the M output masks
elementwise with the single reference channel of the complex input. The
input length is returned unchanged. -/
def MaskReferenceChannel_forward {B C M F T : ℕ} (mask_min mask_max : ℚ) (ref_channel : Fin C)
    (input : Fin B → Fin C → Fin F → Fin T → CQ) (input_length : Fin B → ℕ)
    (mask : Fin B → Fin M → Fin F → Fin T → ℚ) :
    (Fin B → Fin M → Fin F → Fin T → CQ) × (Fin B → ℕ) :=
  let mask1 := fun b m f t => clampt mask_min mask_max (mask b m f t)
  (fun b m f t => smulCQ (mask1 b m f t) (input b ref_channel f t), input_length)

/-- Modelled from the spec: the source applies make_seq_mask_like followed by
masked_fill (both defined outside the provided source file). Section 9 of the
spec describes the semantics as a pure function mask_invalid(array, lengths)
returning a new array with invalid time steps zeroed, where a time frame t of
batch item b is invalid when t is at or beyond lengths(b). -/
def mask_invalid {α : Type} [Zero α] {B C F T : ℕ}
    (x : Fin B → Fin C → Fin F → Fin T → α) (lengths : Fin B → ℕ) :
    Fin B → Fin C → Fin F → Fin T → α :=
  fun b c f t => if (t : ℕ) < lengths b then x b c f t else 0

/-- Undesired-mask selection in MaskBasedBeamformer.forward (audio_modules.py
lines 744-751), before thresholding: the m-th channel of mask_undesired when
supplied, otherwise the complement 1 - mask[:, m] when a single mask is
estimated, otherwise the sum of all masks minus mask[:, m]. -/
def beamformer_mask_u {B M F T : ℕ}
    (mask : Fin B → Fin M → Fin F → Fin T → ℚ)
    (mask_undesired : Option (Fin B → Fin M → Fin F → Fin T → ℚ))
    (m : Fin M) : Fin B → Fin F → Fin T → ℚ :=
  fun b f t =>
    match mask_undesired with
    | some mu => mu b m f t
    | none =>
      if M = 1 then 1 - mask b m f t
      else (∑ mm, mask b mm f t) - mask b m f t

/-- C8: MaskReferenceChannel.forward returns output(b,m,f,t) =
clamp(mask(b,m,f,t), mask_min, mask_max) * input(b, ref_channel, f, t),
broadcasting the reference channel across the mask's output-channel axis,
together with the input length unchanged. -/
theorem mask_reference_channel_spec {B C M F T : ℕ} (mask_min mask_max : ℚ) (ref_channel : Fin C)
    (input : Fin B → Fin C → Fin F → Fin T → CQ) (input_length : Fin B → ℕ)
    (mask : Fin B → Fin M → Fin F → Fin T → ℚ) :
    (∀ b m f t,
      (MaskReferenceChannel_forward mask_min mask_max ref_channel input input_length mask).1 b m f t =
        smulCQ (min (max (mask b m f t) mask_min) mask_max) (input b ref_channel f t)) ∧
    (MaskReferenceChannel_forward mask_min mask_max ref_channel input input_length mask).2 =
      input_length := by
  exact ⟨fun b m f t => rfl, rfl⟩

/-- C9: zeroing time frames at or beyond the valid length is idempotent —
applying the valid-length mask twice yields exactly the same tensor as
applying it once. -/
theorem mask_invalid_idempotent {α : Type} [Zero α] {B C F T : ℕ}
    (x : Fin B → Fin C → Fin F → Fin T → α) (lengths : Fin B → ℕ) :
    mask_invalid (mask_invalid x lengths) lengths = mask_invalid x lengths := by
  funext b c f t
  by_cases h : (t : ℕ) < lengths b <;> simp [mask_invalid, h]

/-- C5: when mask_undesired is not supplied, the undesired mask for output m
equals 1 - mask[:, m] if there is a single mask and (sum over all masks) -
mask[:, m] if there are several, both before thresholding; when
mask_undesired is supplied, its m-th channel is used. -/
theorem beamformer_undesired_mask_cases {B M F T : ℕ}
    (mask : Fin B → Fin M → Fin F → Fin T → ℚ)
    (mu : Fin B → Fin M → Fin F → Fin T → ℚ)
    (m : Fin M) (b : Fin B) (f : Fin F) (t : Fin T) :
    (M = 1 → beamformer_mask_u mask none m b f t = 1 - mask b m f t) ∧
    (1 < M → beamformer_mask_u mask none m b f t = (∑ mm, mask b mm f t) - mask b m f t) ∧
    beamformer_mask_u mask (some mu) m b f t = mu b m f t := by
  refine ⟨fun h => ?_, fun h => ?_, rfl⟩
  · simp [beamformer_mask_u, h]
  · have h1 : M ≠ 1 := by omega
    simp [beamformer_mask_u, h1]

/-- Witness for C5: the single-mask complement and the multi-mask sum rule,
evaluated at concrete masks. For M = 1 with constant mask 1/2 the undesired
mask is 1/2; for M = 2 with mask values 1/4 and 1/3 the undesired mask of
output 0 is 1/3. -/
theorem beamformer_undesired_mask_cases_witness :
    beamformer_mask_u (fun (_ : Fin 1) (_ : Fin 1) (_ : Fin 1) (_ : Fin 1) => (1 : ℚ)/2)
      none 0 0 0 0 = 1/2 ∧
    beamformer_mask_u (fun (_ : Fin 1) (mm : Fin 2) (_ : Fin 1) (_ : Fin 1) =>
      if mm = 0 then (1 : ℚ)/4 else 1/3) none 0 0 0 0 = 1/3 := by
  constructor
  · have h := (beamformer_undesired_mask_cases
      (fun (_ : Fin 1) (_ : Fin 1) (_ : Fin 1) (_ : Fin 1) => (1 : ℚ)/2)
      (fun _ _ _ _ => 0) 0 0 0 0).1 rfl
    rw [h]; norm_num
  · have h := (beamformer_undesired_mask_cases
      (fun (_ : Fin 1) (mm : Fin 2) (_ : Fin 1) (_ : Fin 1) => if mm = 0 then (1 : ℚ)/4 else 1/3)
      (fun _ _ _ _ => 0) 0 0 0 0).2.1 (by norm_num)
    rw [h, Fin.sum_univ_two]; norm_num

/-- Configuration errors raised by MaskBasedBeamformer.__init__: an unknown
filter type (ValueError) or a failed threshold assertion. -/
inductive BFError
  | unknownFilterType
  | assertionFailed
deriving DecidableEq

/-- Construction-time state of MaskBasedBeamformer after __init__:
the filter type, the beta and rank values handed to the internal
ParametricMultichannelWienerFilter, whether the correction warning was
logged, and the linear mask thresholds. -/
structure BFState where
  filter_type : String
  filter_beta : ℚ
  filter_rank : String
  warned : Bool
  mask_min : ℚ
  mask_max : ℚ
  postmask_min : ℚ
  postmask_max : ℚ
deriving DecidableEq

/-- MaskBasedBeamformer.__init__ (audio_modules.py lines 626-687): reject an
unknown filter type; if the filter type is mvdr_souden and filter_beta is
nonzero, log a warning and force beta to 0 and rank to one; construct the
internal filter with the resulting beta and rank; assert the mask and
postmask dB threshold pairs; convert thresholds to linear magnitude using
the external db2mag utility, passed here as a parameter. -/
def MaskBasedBeamformer_init (db2mag : ℚ → ℚ)
    (filter_type : String) (filter_beta : ℚ) (filter_rank : String)
    (mask_min_db mask_max_db postmask_min_db postmask_max_db : ℚ) :
    Except BFError BFState :=
  if ¬ (filter_type = "pmwf" ∨ filter_type = "mvdr_souden") then .error .unknownFilterType
  else
    let bw : ℚ × String × Bool :=
      if filter_type = "mvdr_souden" ∧ filter_beta ≠ 0 then (0, "one", true)
      else (filter_beta, filter_rank, false)
    if ¬ (mask_min_db < mask_max_db) then .error .assertionFailed
    else if ¬ (postmask_min_db ≤ postmask_max_db) then .error .assertionFailed
    else .ok { filter_type := filter_type, filter_beta := bw.1, filter_rank := bw.2.1,
               warned := bw.2.2,
               mask_min := db2mag mask_min_db, mask_max := db2mag mask_max_db,
               postmask_min := db2mag postmask_min_db, postmask_max := db2mag postmask_max_db }

/-- Counterexample to C4: constructing with filter type mvdr_souden, beta 0
and the non-one rank full raises no error but also applies no correction:
the internal filter receives rank full, not rank one as the claim states.
The correction branch tests only filter_beta, so a non-one rank with zero
beta is passed through unchanged. -/
theorem mvdr_souden_rank_not_corrected :
    MaskBasedBeamformer_init (fun q => q) "mvdr_souden" 0 "full" (-200) 0 0 0 =
      .ok { filter_type := "mvdr_souden", filter_beta := 0, filter_rank := "full",
            warned := false, mask_min := -200, mask_max := 0,
            postmask_min := 0, postmask_max := 0 } ∧
    "full" ≠ "one" := by
  constructor
  · simp [MaskBasedBeamformer_init]
  · decide

/-- C4 (amended): constructing MaskBasedBeamformer with filter type
mvdr_souden never raises for any caller-supplied beta and rank (given valid
threshold pairs); when the supplied beta is nonzero, the configuration is
silently corrected with a logged warning and the internal filter receives
beta 0 and rank one; but when the supplied beta is zero, a non-one rank is
passed to the internal filter unchanged, without correction or warning. -/
theorem mvdr_souden_init_correction (db2mag : ℚ → ℚ) (filter_beta : ℚ) (filter_rank : String)
    (m1 m2 p1 p2 : ℚ) (hm : m1 < m2) (hp : p1 ≤ p2) :
    MaskBasedBeamformer_init db2mag "mvdr_souden" filter_beta filter_rank m1 m2 p1 p2 =
      .ok { filter_type := "mvdr_souden",
            filter_beta := if filter_beta = 0 then filter_beta else 0,
            filter_rank := if filter_beta = 0 then filter_rank else "one",
            warned := if filter_beta = 0 then false else true,
            mask_min := db2mag m1, mask_max := db2mag m2,
            postmask_min := db2mag p1, postmask_max := db2mag p2 } := by
  by_cases hb : filter_beta = 0 <;>
    simp [MaskBasedBeamformer_init, hm, hp, not_lt_of_lt, hb]

/-- Witness for C4: a concrete nonzero-beta construction succeeds with the
corrected beta 0, rank one and a logged warning. -/
theorem mvdr_souden_init_correction_witness :
    MaskBasedBeamformer_init (fun q => q) "mvdr_souden" 1 "full" (-200) 0 0 0 =
      .ok { filter_type := "mvdr_souden",
            filter_beta := if (1 : ℚ) = 0 then 1 else 0,
            filter_rank := if (1 : ℚ) = 0 then "full" else "one",
            warned := if (1 : ℚ) = 0 then false else true,
            mask_min := -200, mask_max := 0, postmask_min := 0, postmask_max := 0 } :=
  mvdr_souden_init_correction (fun q => q) 1 "full" (-200) 0 0 0 (by norm_num) (by norm_num)

/-- Floating-point value as observed by the final NaN check of
MaskEstimatorGSS.forward: a finite number, a signed infinity, or NaN. -/
inductive FP
  | num (q : ℚ)
  | posInf
  | negInf
  | nan
deriving DecidableEq

/-- Embedding of torch.isnan for a single element. -/
def FP.isnan : FP → Bool
  | .nan => true
  | _ => false

/-- A value is finite when it is an ordinary number, neither infinite nor NaN. -/
def FP.isfinite : FP → Bool
  | .num _ => true
  | _ => false

/-- Error raised at the end of MaskEstimatorGSS.forward. -/
inductive GSSError
  | gammaContainsNaN
deriving DecidableEq

/-- Postcondition check at the end of MaskEstimatorGSS.forward
(audio_modules.py lines 541-544): raise RuntimeError when any entry of the
final mask gamma is NaN, otherwise return gamma unchanged. there is no retry
and no other check on gamma. -/
def MaskEstimatorGSS_output_check {B M F T : ℕ}
    (gamma : Fin B → Fin M → Fin F → Fin T → FP) :
    Except GSSError (Fin B → Fin M → Fin F → Fin T → FP) :=
  if ∃ b m f t, (gamma b m f t).isnan = true then .error .gammaContainsNaN
  else .ok gamma

/-- Counterexample to C3: a gamma consisting of positive infinities contains
non-finite values, yet the final check of MaskEstimatorGSS.forward returns
it normally instead of raising, because the code tests torch.isnan only.
The claimed equivalence between raising and the presence of non-finite
values therefore fails. -/
theorem gss_check_passes_inf :
    MaskEstimatorGSS_output_check
        (fun (_ : Fin 1) (_ : Fin 2) (_ : Fin 1) (_ : Fin 1) => FP.posInf) =
      .ok (fun _ _ _ _ => FP.posInf) ∧
    FP.isfinite FP.posInf = false := by
  constructor
  · rw [MaskEstimatorGSS_output_check, if_neg]
    simp [FP.isnan]
  · rfl

/-- C3 (amended): the final check of MaskEstimatorGSS.forward raises if and
only if the output mask gamma contains NaN entries; whenever gamma is free
of NaN — even if it contains infinite, non-finite entries — the mask is
returned unchanged. The error is raised once, with no retry. -/
theorem gss_output_check_nan_iff {B M F T : ℕ}
    (gamma : Fin B → Fin M → Fin F → Fin T → FP) :
    (MaskEstimatorGSS_output_check gamma = .error .gammaContainsNaN ↔
      ∃ b m f t, (gamma b m f t).isnan = true) ∧
    (MaskEstimatorGSS_output_check gamma = .ok gamma ↔
      ∀ b m f t, (gamma b m f t).isnan = false) := by
  rw [MaskEstimatorGSS_output_check]
  by_cases h : ∃ b m f t, (gamma b m f t).isnan = true
  · rw [if_pos h]
    constructor
    · exact ⟨fun _ => h, fun _ => rfl⟩
    · constructor
      · intro hok; exact absurd hok (by simp)
      · intro hall
        obtain ⟨b, m, f, t, hbt⟩ := h
        rw [hall b m f t] at hbt
        exact absurd hbt (by simp)
  · rw [if_neg h]
    push_neg at h
    constructor
    · constructor
      · intro hok; exact absurd hok (by simp)
      · intro hex
        obtain ⟨b, m, f, t, hbt⟩ := hex
        exact absurd hbt (h b m f t)
    · refine ⟨fun _ b m f t => ?_, fun _ => rfl⟩
      have := h b m f t
      simpa using this

/-- Embedding of torch.max over the source/output axis, used in
MaskEstimatorGSS.update_masks to normalize log-pdf values in the log domain. -/
def maxOverSources {M : ℕ} [Nonempty (Fin M)] (v : Fin M → ℚ) : ℚ :=
  Finset.univ.sup' Finset.univ_nonempty v

/-- MaskEstimatorGSS.update_masks (audio_modules.py lines 392-417): subtract
the per-bin maximum of the log-pdf across the M sources, exponentiate,
multiply by the component weight alpha and the caller-supplied activity, and
normalize across sources with an eps-regularized denominator. The elementwise
exponential is a backend primitive and is passed as the parameter expFn. -/
def update_masks {B M F T : ℕ} [Nonempty (Fin M)] (eps : ℚ) (expFn : ℚ → ℚ)
    (alpha : Fin B → Fin M → Fin F → ℚ)
    (activity : Fin B → Fin M → Fin T → ℚ)
    (log_pdf : Fin B → Fin M → Fin F → Fin T → ℚ) :
    Fin B → Fin M → Fin F → Fin T → ℚ :=
  fun b m f t =>
    let mx := maxOverSources fun mm => log_pdf b mm f t
    let g := fun mm => alpha b mm f * expFn (log_pdf b mm f t - mx) * activity b mm t
    g m / ((∑ mm, g mm) + eps)

/-- Mass of the unnormalized responsibilities at one (b, f, t) bin: the
denominator of the update_masks normalization before eps-regularization. -/
def gss_premass {B M F T : ℕ} [Nonempty (Fin M)] (expFn : ℚ → ℚ)
    (alpha : Fin B → Fin M → Fin F → ℚ)
    (activity : Fin B → Fin M → Fin T → ℚ)
    (log_pdf : Fin B → Fin M → Fin F → Fin T → ℚ)
    (b : Fin B) (f : Fin F) (t : Fin T) : ℚ :=
  let mx := maxOverSources fun mm => log_pdf b mm f t
  ∑ mm, alpha b mm f * expFn (log_pdf b mm f t - mx) * activity b mm t

/-- Counterexample to C1: an activity tensor that is identically zero is
accepted by MaskEstimatorGSS.forward (its asserts check only shapes and that
there are at least two outputs), and update_masks receives the raw activity,
not the eps-clamped copy used for initialization. Every responsibility is
then 0/(0+eps) = 0, so the mask sum over sources is 0, not within eps of 1.
Evaluated with the default eps = 1e-8 and two sources. -/
theorem update_masks_sum_not_normalized :
    ¬ (|(∑ m : Fin 2, update_masks ((1 : ℚ)/100000000) (fun _ => 1)
          (fun (_ : Fin 1) (_ : Fin 2) (_ : Fin 1) => 1)
          (fun (_ : Fin 1) (_ : Fin 2) (_ : Fin 1) => 0)
          (fun (_ : Fin 1) (_ : Fin 2) (_ : Fin 1) (_ : Fin 1) => 0) 0 m 0 0) - 1|
        ≤ (1 : ℚ)/100000000) := by
  have h : (∑ m : Fin 2, update_masks ((1 : ℚ)/100000000) (fun _ => 1)
      (fun (_ : Fin 1) (_ : Fin 2) (_ : Fin 1) => 1)
      (fun (_ : Fin 1) (_ : Fin 2) (_ : Fin 1) => 0)
      (fun (_ : Fin 1) (_ : Fin 2) (_ : Fin 1) (_ : Fin 1) => 0) 0 m 0 0) = 0 := by
    simp [update_masks]
  rw [h]
  have habs : |(0 : ℚ) - 1| = 1 := by rw [zero_sub, abs_neg, abs_one]
  rw [habs]
  norm_num

/-- C1 (amended): after an EM mask update the sum over sources of the mask
equals S/(S+eps) where S is the unnormalized responsibility mass of the bin,
so it lies below 1; it is within eps of 1 exactly when S is at least 1-eps,
which holds for well-behaved inputs but fails for degenerate ones such as
all-zero activity, where the sum is 0. -/
theorem update_masks_sum_near_one {B M F T : ℕ} [Nonempty (Fin M)] (eps : ℚ) (expFn : ℚ → ℚ)
    (alpha : Fin B → Fin M → Fin F → ℚ)
    (activity : Fin B → Fin M → Fin T → ℚ)
    (log_pdf : Fin B → Fin M → Fin F → Fin T → ℚ)
    (b : Fin B) (f : Fin F) (t : Fin T)
    (heps : 0 < eps)
    (hS0 : 0 ≤ gss_premass expFn alpha activity log_pdf b f t)
    (hS1 : 1 - eps ≤ gss_premass expFn alpha activity log_pdf b f t) :
    (∑ m, update_masks eps expFn alpha activity log_pdf b m f t) =
      gss_premass expFn alpha activity log_pdf b f t /
        (gss_premass expFn alpha activity log_pdf b f t + eps) ∧
    |(∑ m, update_masks eps expFn alpha activity log_pdf b m f t) - 1| ≤ eps := by
  set S := gss_premass expFn alpha activity log_pdf b f t with hSdef
  have hsum : (∑ m, update_masks eps expFn alpha activity log_pdf b m f t) = S / (S + eps) := by
    rw [hSdef]
    simp only [update_masks, gss_premass]
    rw [← Finset.sum_div]
  have hpos : 0 < S + eps := by linarith
  have hle1 : S / (S + eps) ≤ 1 := by
    rw [div_le_one hpos]; linarith
  have hge : 1 - eps ≤ S / (S + eps) := by
    rw [le_div_iff₀ hpos]
    nlinarith [mul_le_mul_of_nonneg_left (show (1 : ℚ) ≤ S + eps from by linarith)
      (le_of_lt heps)]
  refine ⟨hsum, ?_⟩
  rw [hsum, abs_le]
  constructor <;> linarith

/-- Witness for C1 (amended): with two sources, unit weights, unit activity,
zero log-pdf and the exponential replaced by its value 1 at argument 0, the
pre-normalization mass is 2, and the mask sum 2/(2+eps) is within the
default eps = 1e-8 of 1. -/
theorem update_masks_sum_near_one_witness :
    |(∑ m : Fin 2, update_masks ((1 : ℚ)/100000000) (fun _ => 1)
        (fun (_ : Fin 1) (_ : Fin 2) (_ : Fin 1) => 1)
        (fun (_ : Fin 1) (_ : Fin 2) (_ : Fin 1) => 1)
        (fun (_ : Fin 1) (_ : Fin 2) (_ : Fin 1) (_ : Fin 1) => 0) 0 m 0 0) - 1|
      ≤ (1 : ℚ)/100000000 :=
  (update_masks_sum_near_one ((1 : ℚ)/100000000) (fun _ => 1)
    (fun _ _ _ => 1) (fun _ _ _ => 1) (fun _ _ _ _ => 0) 0 0 0
    (by norm_num)
    (by norm_num [gss_premass, maxOverSources])
    (by norm_num [gss_premass, maxOverSources])).2

/-- Complex matrix with n rows and k columns. -/
abbrev CMat (n k : ℕ) : Type := Fin n → Fin k → CQ

/-- Trace of a square complex matrix, matching torch.diagonal(Q).sum(-1). -/
def mtrace {n : ℕ} (Q : CMat n n) : CQ := ∑ i, Q i i

/-- Conjugate transpose, matching Q.conj().transpose(-2, -1). -/
def conjT {n k : ℕ} (A : CMat n k) : CMat k n := fun i j => ((A j i).1, -(A j i).2)

/-- Diagonal regularization step of WPEFilter.estimate_filter
(audio_modules.py lines 1024-1029): only when the configured diag_reg is
truthy (neither None nor zero), add diag_reg * Re(trace(Q)) + eps to every
diagonal entry of Q; otherwise Q is left untouched. -/
def regularize_Q {n : ℕ} (diag_reg : Option ℚ) (eps : ℚ) (Q : CMat n n) : CMat n n :=
  match diag_reg with
  | none => Q
  | some dr =>
    if dr = 0 then Q
    else
      let c := dr * (mtrace Q).1 + eps
      fun i j => Q i j + (if i = j then ((c, 0) : CQ) else 0)

/-- WPEFilter.estimate_filter for a single (b, f) subband system
(audio_modules.py lines 1003-1044): regularize Q, factor it with the
backend Cholesky factorization, then obtain G by a forward triangular solve
with the lower factor followed by a backward triangular solve with its
conjugate transpose. The three linear-algebra primitives are backend
functions passed as parameters. -/
def estimate_filter {n k : ℕ} (diag_reg : Option ℚ) (eps : ℚ)
    (cholesky : CMat n n → CMat n n)
    (solve_tri_lower : CMat n n → CMat n k → CMat n k)
    (solve_tri_upper : CMat n n → CMat n k → CMat n k)
    (Q : CMat n n) (R : CMat n k) : CMat n k :=
  let Qr := regularize_Q diag_reg eps Q
  let QL := cholesky Qr
  let G := solve_tri_lower QL R
  solve_tri_upper (conjT QL) G

/-- Counterexample to C6: with configured diag_reg = 0, the code skips the
regularization block entirely (the Python guard tests the truthiness of
diag_reg), so for the one-by-one matrix Q = [[1]] the matrix handed to the
Cholesky solve stays [[1]], while the claimed formula requires adding
0 * trace + eps = eps to the diagonal. -/
theorem regularize_Q_zero_diag_reg :
    regularize_Q (some 0) ((1 : ℚ)/100000000) (fun (_ : Fin 1) (_ : Fin 1) => ((1 : ℚ), (0 : ℚ))) 0 0 =
      ((1 : ℚ), (0 : ℚ)) ∧
    ¬ (regularize_Q (some 0) ((1 : ℚ)/100000000)
        (fun (_ : Fin 1) (_ : Fin 1) => ((1 : ℚ), (0 : ℚ))) 0 0 =
      ((1 : ℚ), (0 : ℚ)) +
        ((0 * (mtrace (fun (_ : Fin 1) (_ : Fin 1) => ((1 : ℚ), (0 : ℚ)))).1 + (1 : ℚ)/100000000,
          (0 : ℚ))) ) := by
  constructor
  · simp [regularize_Q]
  · simp [regularize_Q, mtrace, Prod.ext_iff]

/-- C6 (amended): in WPEFilter.estimate_filter, whenever the configured
diag_reg is nonzero, the per-subband matrix Q is regularized by adding
diag_reg * Re(trace(Q)) + eps to each diagonal entry before the solve, and
the system Q G = R is solved by Cholesky factorization of the regularized Q
followed by a forward and a backward triangular solve; when diag_reg is zero
or None, Q is handed to the same Cholesky solve unmodified, without even the
eps term. -/
theorem estimate_filter_regularized {n k : ℕ} (dr eps : ℚ) (hdr : dr ≠ 0)
    (cholesky : CMat n n → CMat n n)
    (solve_tri_lower : CMat n n → CMat n k → CMat n k)
    (solve_tri_upper : CMat n n → CMat n k → CMat n k)
    (Q : CMat n n) (R : CMat n k) :
    regularize_Q (some dr) eps Q =
      (fun i j => Q i j + (if i = j then ((dr * (mtrace Q).1 + eps, (0 : ℚ)) : CQ) else 0)) ∧
    estimate_filter (some dr) eps cholesky solve_tri_lower solve_tri_upper Q R =
      solve_tri_upper (conjT (cholesky (regularize_Q (some dr) eps Q)))
        (solve_tri_lower (cholesky (regularize_Q (some dr) eps Q)) R) ∧
    regularize_Q (some 0) eps Q = Q ∧
    regularize_Q none eps Q = Q := by
  refine ⟨?_, rfl, by simp [regularize_Q], rfl⟩
  funext i j
  simp [regularize_Q, hdr]

/-- Witness for C6 (amended): the regularization and solve structure at the
default diag_reg = 1e-6 and eps = 1e-8 on a concrete one-by-one system, with
identity backend primitives. -/
theorem estimate_filter_regularized_witness :
    regularize_Q (some ((1 : ℚ)/1000000)) ((1 : ℚ)/100000000)
        (fun (_ : Fin 1) (_ : Fin 1) => ((1 : ℚ), (0 : ℚ))) =
      (fun i j => (fun (_ : Fin 1) (_ : Fin 1) => ((1 : ℚ), (0 : ℚ))) i j +
        (if i = j then
          (((1 : ℚ)/1000000 *
              (mtrace (fun (_ : Fin 1) (_ : Fin 1) => ((1 : ℚ), (0 : ℚ)))).1 + (1 : ℚ)/100000000,
            (0 : ℚ)) : CQ) else 0)) ∧
    estimate_filter (some ((1 : ℚ)/1000000)) ((1 : ℚ)/100000000) id
        (fun _ r => r) (fun _ g => g)
        (fun (_ : Fin 1) (_ : Fin 1) => ((1 : ℚ), (0 : ℚ)))
        (fun (_ : Fin 1) (_ : Fin 1) => ((2 : ℚ), (0 : ℚ))) =
      (fun _ g => g) (conjT (id (regularize_Q (some ((1 : ℚ)/1000000)) ((1 : ℚ)/100000000)
          (fun (_ : Fin 1) (_ : Fin 1) => ((1 : ℚ), (0 : ℚ))))))
        ((fun _ r => r) (id (regularize_Q (some ((1 : ℚ)/1000000)) ((1 : ℚ)/100000000)
          (fun (_ : Fin 1) (_ : Fin 1) => ((1 : ℚ), (0 : ℚ)))))
          (fun (_ : Fin 1) (_ : Fin 1) => ((2 : ℚ), (0 : ℚ)))) := by
  have h := estimate_filter_regularized ((1 : ℚ)/1000000) ((1 : ℚ)/100000000)
    (by norm_num) id (fun _ r => r) (fun _ g => g)
    (fun (_ : Fin 1) (_ : Fin 1) => ((1 : ℚ), (0 : ℚ)))
    (fun (_ : Fin 1) (_ : Fin 1) => ((2 : ℚ), (0 : ℚ)))
  exact ⟨h.1, h.2.1⟩

/-- Left zero-padding of the time axis by p frames, the embedding of
torch.nn.functional.pad(x, (p, 0)) on the last dimension. -/
def padFront {α : Type} [Zero α] {N : ℕ} (p : ℕ) (x : Fin N → α) : Fin (p + N) → α :=
  fun tau =>
    if h : (tau : ℕ) < p then 0
    else x ⟨(tau : ℕ) - p, by have := tau.isLt; omega⟩

/-- Sliding-window view of the last axis: unfoldLast size arr t l is
arr (t + l), the embedding of Tensor.unfold(-1, size, 1). -/
def unfoldLast {α : Type} {L : ℕ} (size : ℕ) (hs : size ≤ L) (arr : Fin L → α) :
    Fin (L - size + 1) → Fin size → α :=
  fun t l => arr ⟨(t : ℕ) + (l : ℕ), by have ht := t.isLt; have hl := l.isLt; omega⟩

/-- WPEFilter.convtensor (audio_modules.py lines 882-922): pad the time axis
on the left with filter_length - 1 + delay zeros, unfold windows of length
filter_length with stride 1, and trim to the first N time steps. The
hypotheses mirror the torch preconditions: a positive filter length and a
nonempty time axis, without which unfold would reject the call. -/
def convtensor {α : Type} [Zero α] {B C F N : ℕ}
    (x : Fin B → Fin C → Fin F → Fin N → α) (filter_length delay : ℕ)
    (hL : 1 ≤ filter_length) (hN : 1 ≤ N) :
    Fin B → Fin C → Fin F → Fin N → Fin filter_length → α :=
  fun b c f t l =>
    unfoldLast filter_length (by omega)
      (padFront (filter_length - 1 + delay) (x b c f))
      ⟨(t : ℕ), by have := t.isLt; omega⟩ l

/-- Lookup of a time signal at a possibly out-of-range integer index,
returning 0 outside the valid range. -/
def getOrZero {α : Type} [Zero α] {N : ℕ} (x : Fin N → α) (i : ℤ) : α :=
  if h : 0 ≤ i ∧ i < (N : ℤ) then x ⟨i.toNat, by omega⟩ else 0

/-- C7: the entry of WPEFilter.convtensor at (b, c, f, t, l) is the input at
time t - delay - (filter_length - 1) + l when that index is non-negative and
0 otherwise; moreover a non-negative index is automatically within the valid
time range, so the getOrZero lookup never truncates on the right. -/
theorem convtensor_entry {α : Type} [Zero α] {B C F N : ℕ}
    (x : Fin B → Fin C → Fin F → Fin N → α) (filter_length delay : ℕ)
    (hL : 1 ≤ filter_length) (hN : 1 ≤ N)
    (b : Fin B) (c : Fin C) (f : Fin F) (t : Fin N) (l : Fin filter_length) :
    convtensor x filter_length delay hL hN b c f t l =
      getOrZero (x b c f) ((t : ℤ) - delay - ((filter_length : ℤ) - 1) + l) ∧
    (0 ≤ (t : ℤ) - delay - ((filter_length : ℤ) - 1) + l →
      (t : ℤ) - delay - ((filter_length : ℤ) - 1) + l < (N : ℤ)) := by
  have ht := t.isLt
  have hl := l.isLt
  constructor
  · rw [convtensor, unfoldLast, padFront, getOrZero]
    by_cases hpad : (t : ℕ) + (l : ℕ) < filter_length - 1 + delay
    · rw [dif_pos hpad, dif_neg]
      omega
    · rw [dif_neg hpad, dif_pos (by omega)]
      congr 1
      apply Fin.ext
      simp only
      omega
  · intro hpos
    omega

/-- Witness for C7: a concrete window with filter_length 2, delay 1 on a
three-frame signal; the window entry at t = 2, l = 1 is the signal at
integer time 2 - 1 - (2 - 1) + 1 = 1. -/
theorem convtensor_entry_witness :
    convtensor (fun (_ : Fin 1) (_ : Fin 1) (_ : Fin 1) (t : Fin 3) => ((t : ℕ) : ℚ)) 2 1
        (by decide) (by decide) 0 0 0 2 1 =
      getOrZero (fun (t : Fin 3) => ((t : ℕ) : ℚ))
        ((((2 : Fin 3) : ℕ) : ℤ) - 1 - ((2 : ℤ) - 1) + (((1 : Fin 2) : ℕ) : ℤ)) :=
  (convtensor_entry (fun (_ : Fin 1) (_ : Fin 1) (_ : Fin 1) (t : Fin 3) => ((t : ℕ) : ℚ))
    2 1 (by decide) (by decide) 0 0 0 2 1).1

/-- Tensor element type tags relevant to MaskBasedDereverbWPE.forward. -/
inductive Dtype
  | float32
  | float64
  | cfloat
  | cdouble
deriving DecidableEq

/-- Embedding of torch.Tensor.is_complex, a property of the dtype alone. -/
def Dtype.is_complex : Dtype → Bool
  | .cfloat => true
  | .cdouble => true
  | _ => false

/-- Spectrogram tensor carrying its dtype. The data is stored as complex
values; a tensor with a real dtype has zero imaginary parts. -/
structure CTensor (B C F T : ℕ) where
  dtype : Dtype
  data : Fin B → Fin C → Fin F → Fin T → CQ

/-- Embedding of Tensor.to(dtype): converting to a complex dtype embeds real
values with zero imaginary part and keeps complex values; converting to a
real dtype discards the imaginary part. No error is raised either way. -/
def toDtype {B C F T : ℕ} (x : CTensor B C F T) (d : Dtype) : CTensor B C F T :=
  if d.is_complex then { dtype := d, data := x.data }
  else { dtype := d, data := fun b c f t => ((x.data b c f t).1, 0) }

/-- Errors observable from MaskBasedDereverbWPE.forward: the complex-input
assertion, and Python's UnboundLocalError for a variable read before any
assignment. -/
inductive WPEErr
  | assertNotComplex
  | unboundLocal
deriving DecidableEq

/-- MaskBasedDereverbWPE.forward (audio_modules.py lines 1150-1183): convert
the input to the configured internal dtype, assert the converted tensor is
complex, then run num_iterations reweighting iterations; each iteration
takes the magnitude of the current estimate (via the backend elementwise
absFn), on the first iteration multiplies in the clamped mask if one was
given, squares it into a power estimate, and calls WPEFilter.forward —
abstracted here as the parameter wpe_filter taking (input, power,
input_length) — rebinding the local variables output and output_length.
After the loop the result is cast back to the caller dtype and returned with
output_length; when the loop body never ran, output_length was never
assigned and the return statement fails with UnboundLocalError. -/
def MaskBasedDereverbWPE_forward {B C F T : ℕ}
    (self_dtype : Dtype) (num_iterations : ℕ) (mask_min mask_max : ℚ)
    (absFn : CQ → ℚ)
    (wpe_filter : (Fin B → Fin C → Fin F → Fin T → CQ) →
      (Fin B → Fin C → Fin F → Fin T → ℚ) → Option (Fin B → ℕ) →
      (Fin B → Fin C → Fin F → Fin T → CQ) × Option (Fin B → ℕ))
    (input : CTensor B C F T) (input_length : Option (Fin B → ℕ))
    (mask : Option (Fin B → Fin C → Fin F → Fin T → ℚ)) :
    Except WPEErr (CTensor B C F T × Option (Fin B → ℕ)) :=
  let io_dtype := input.dtype
  let output0 := toDtype input self_dtype
  if output0.dtype.is_complex then
    let st := (List.range num_iterations).foldl
      (fun (st : (Fin B → Fin C → Fin F → Fin T → CQ) × Option (Option (Fin B → ℕ))) i =>
        let magnitude := fun b c f t => absFn (st.1 b c f t)
        let magnitude :=
          match mask, i with
          | some mk, 0 => fun b c f t => clampt mask_min mask_max (mk b c f t) * magnitude b c f t
          | _, _ => magnitude
        let power := fun b c f t => magnitude b c f t ^ 2
        let res := wpe_filter st.1 power input_length
        (res.1, some res.2))
      (output0.data, none)
    match st.2 with
    | none => .error .unboundLocal
    | some output_length => .ok (toDtype { dtype := self_dtype, data := st.1 } io_dtype, output_length)
  else .error .assertNotComplex

/-- Helper predicate: an Except value is a normal return. -/
def exceptIsOk {ε α : Type} : Except ε α → Bool
  | .ok _ => true
  | .error _ => false

/-- C2 evidence: a real-valued float32 input is not rejected by
MaskBasedDereverbWPE.forward. The conversion to the internal cdouble dtype
happens before the complex-input assertion and always yields a complex
tensor, so the assertion can never fire; with one iteration the call returns
a dereverberated output normally instead of failing. Here the input is the
constant real spectrogram with value 1 and the WPE filter step is the
identity backend stand-in. -/
theorem dereverb_real_input_not_rejected :
    exceptIsOk (MaskBasedDereverbWPE_forward (B := 1) (C := 1) (F := 1) (T := 1)
      Dtype.cdouble 1 0 1 (fun z => z.1) (fun o _ l => (o, l))
      { dtype := Dtype.float32, data := fun _ _ _ _ => ((1 : ℚ), (0 : ℚ)) }
      none none) = true := by
  rfl

/-- C10: with the internal dtype complex (as the constructor asserts), a
MaskBasedDereverbWPE configured with num_iterations = 0 fails on every input
with UnboundLocalError — output_length is read by the return statement but
assigned only inside the loop, which never runs — and conversely any call
that returns normally ran at least one iteration. -/
theorem dereverb_zero_iterations_unbound {B C F T : ℕ}
    (self_dtype : Dtype) (num_iterations : ℕ) (mask_min mask_max : ℚ)
    (absFn : CQ → ℚ)
    (wpe_filter : (Fin B → Fin C → Fin F → Fin T → CQ) →
      (Fin B → Fin C → Fin F → Fin T → ℚ) → Option (Fin B → ℕ) →
      (Fin B → Fin C → Fin F → Fin T → CQ) × Option (Fin B → ℕ))
    (input : CTensor B C F T) (input_length : Option (Fin B → ℕ))
    (mask : Option (Fin B → Fin C → Fin F → Fin T → ℚ))
    (hdt : self_dtype.is_complex = true) :
    (num_iterations = 0 →
      MaskBasedDereverbWPE_forward self_dtype num_iterations mask_min mask_max absFn
        wpe_filter input input_length mask = .error .unboundLocal) ∧
    (∀ y, MaskBasedDereverbWPE_forward self_dtype num_iterations mask_min mask_max absFn
        wpe_filter input input_length mask = .ok y → 1 ≤ num_iterations) := by
  have hconv : (toDtype input self_dtype).dtype.is_complex = true := by
    rw [toDtype]
    by_cases h : self_dtype.is_complex <;> simp_all
  have herr : num_iterations = 0 →
      MaskBasedDereverbWPE_forward self_dtype num_iterations mask_min mask_max absFn
        wpe_filter input input_length mask = .error .unboundLocal := by
    intro h0
    subst h0
    rw [MaskBasedDereverbWPE_forward, if_pos (by simpa using hconv)]
    rfl
  refine ⟨herr, fun y hy => ?_⟩
  by_contra hn
  have h0 : num_iterations = 0 := by omega
  rw [herr h0] at hy
  exact Except.noConfusion hy

/-- Witness for C10: a concrete zero-iteration call with the default cdouble
internal dtype fails with UnboundLocalError. -/
theorem dereverb_zero_iterations_unbound_witness :
    MaskBasedDereverbWPE_forward (B := 1) (C := 1) (F := 1) (T := 1)
      Dtype.cdouble 0 0 1 (fun z => z.1) (fun o _ l => (o, l))
      { dtype := Dtype.cdouble, data := fun _ _ _ _ => ((1 : ℚ), (0 : ℚ)) }
      none none = .error .unboundLocal :=
  (dereverb_zero_iterations_unbound Dtype.cdouble 0 0 1 (fun z => z.1) (fun o _ l => (o, l))
    { dtype := Dtype.cdouble, data := fun _ _ _ _ => ((1 : ℚ), (0 : ℚ)) }
    none none rfl).1 rfl
